import Mathlib

/-!
Verification of `week1_embeddings/features.py`: a Bag-of-Words (`BoW`) and a
TF-IDF (`TfIdf`) text vectorizer, both following the fit/transform pattern.

The Python code is shallowly embedded:
  * a text is a `String`; `str.split()` (split on whitespace runs, dropping
    empty pieces) is `tokenize`;
  * Python dicts built from token sets become association lists
    (`List (String × _)`); the iteration order of a Python `set` is
    arbitrary, here it is the order `List.dedup` happens to produce —
    no claim below depends on that order;
  * `sorted(keys, key=..., reverse=True)` becomes a stable insertion sort
    by a `Nat` key, descending (`sortDesc`);
  * `np.float32` counts are kept exact as `Nat`; real-valued tf-idf scores
    use `ℝ` with `Real.log` for `np.log` and `l2norm` for
    `np.linalg.norm`;
  * a failed `assert` and the `ValueError` that `np.stack` raises on an
    empty list become `Except.error` values (`Err.assertFail`,
    `Err.stackEmpty`).
-/

namespace Features

/-- One token accumulator step of Python `str.split()`: scan the characters,
whitespace ends the current token, empty pieces are dropped. -/
def splitTokens : List Char → List Char → List String
  | [], acc => if acc.isEmpty then [] else [String.mk acc.reverse]
  | c :: cs, acc =>
    if c.isWhitespace then
      (if acc.isEmpty then [] else [String.mk acc.reverse]) ++ splitTokens cs []
    else
      splitTokens cs (c :: acc)

/-- Model of `text.split()` — whitespace tokenization, empty pieces dropped. -/
def tokenize (s : String) : List String := splitTokens s.data []

/-- All tokens of the corpus in document order; equals
`' '.join(X).split()` since joining on a space and re-splitting on
whitespace concatenates the per-document token lists. -/
def corpusTokens (X : List String) : List String := (X.map tokenize).flatten

/-- Model of `set(' '.join(X).split())`: the distinct tokens of the corpus, as a
duplicate-free list (Python set order is arbitrary; so is this one). -/
def corpusVocab (X : List String) : List String := (corpusTokens X).dedup

/-- Model of `sorted(l, key=key, reverse=True)`: stable sort by a `Nat` key,
highest key first. -/
def sortDesc (key : α → Nat) (l : List α) : List α :=
  List.insertionSort (fun a b => key b ≤ key a) l

/-- Global occurrence count of a token across the whole corpus (the value
`res[word]` accumulated by `BoW.fit`). -/
def corpusCount (X : List String) (w : String) : Nat := (corpusTokens X).count w

/-- Error outcomes a `transform` call can surface: the used-before-fit
`assert`, and the `ValueError` of `np.stack([])`. -/
inductive Err
  | assertFail
  | stackEmpty
  deriving DecidableEq

/-- The `BoW` transformer: `k` most frequent tokens; `bow` is `None`
until `fit` stores the learned vocabulary. -/
structure BoW where
  k : Nat
  bow : Option (List String)

/-- Model of `BoW.__init__`: `self.bow = None`. -/
def BoW.init (k : Nat) : BoW := ⟨k, none⟩

/-- The vocabulary computed by `BoW.fit`:
`sorted(res, key=lambda x: res[x], reverse=True)[:k]` where `res` maps the
distinct corpus tokens to their global occurrence counts. -/
def bowVocab (k : Nat) (X : List String) : List String :=
  (sortDesc (fun w => corpusCount X w) (corpusVocab X)).take k

/-- Model of `BoW.fit`: store the vocabulary (and return self). -/
def BoW.fit (m : BoW) (X : List String) : BoW :=
  { m with bow := some (bowVocab m.k X) }

/-- Model of `BoW._text_to_bow`: over the vocabulary's keys in order, the count of
each vocabulary token in the text (tokens outside the vocabulary only
skip the `if word in self.bow` branch). -/
def text_to_bow (V : List String) (text : String) : List Nat :=
  V.map (fun w => (tokenize text).count w)

/-- Model of `BoW.transform`: `assert self.bow is not None`, then
`np.stack([... for text in X])`, which raises on an empty `X`. -/
def BoW.transform (m : BoW) (X : List String) : Except Err (List (List Nat)) :=
  match m.bow with
  | none => Except.error Err.assertFail
  | some V =>
      if X.isEmpty then Except.error Err.stackEmpty
      else Except.ok (X.map (fun t => text_to_bow V t))

/-- Model of `BoW.transform` as a state transformer: the method body only reads
`self.bow` and assigns no attribute, so the post-state is the pre-state. -/
def BoW.transformS (m : BoW) (X : List String) :
    Except Err (List (List Nat)) × BoW :=
  (m.transform X, m)

/-- Model of `EPS = 1e-4`. -/
def EPS : ℝ := 1e-4

/-- Document frequency: the number of documents of `X` containing `w` at
least once (the value `self.idf[word]` accumulated by `TfIdf.fit`, which
adds 1 per document whose `set(text.split())` contains `word`). -/
def docFreq (X : List String) (w : String) : Nat :=
  X.countP (fun t => decide (w ∈ tokenize t))

/-- The document-frequency table after the counting loops of `TfIdf.fit`:
each distinct corpus token paired with its document frequency. -/
def dfTable (X : List String) : List (String × Nat) :=
  (corpusVocab X).map (fun w => (w, docFreq X w))

/-- The `if self.k:` restriction step of `TfIdf.fit`. Python truthiness:
`None` and `0` both skip the branch; otherwise the keys are sorted by
document frequency descending and the first `k` kept
(`enumerate(keys) ... if i < self.k`). -/
def restrictTable (k : Option Nat) (tbl : List (String × Nat)) :
    List (String × Nat) :=
  match k with
  | none => tbl
  | some 0 => tbl
  | some n => (sortDesc (fun p => p.2) tbl).take n

/-- Model of `np.log(N / (df + 1))`: the idf score of a token with document
frequency `df` in a corpus of `N` documents. -/
noncomputable def idfValue (N df : Nat) : ℝ :=
  Real.log ((N : ℝ) / ((df : ℝ) + 1))

/-- The idf table stored by `TfIdf.fit`: the (possibly k-restricted)
document-frequency table, each entry re-scored by `idfValue`. -/
noncomputable def fitIdf (k : Option Nat) (X : List String) :
    List (String × ℝ) :=
  (restrictTable k (dfTable X)).map (fun p => (p.1, idfValue X.length p.2))

/-- The `TfIdf` transformer. `idf` is the stored idf dict; `__init__`
sets it to an *empty* `OrderedDict()` (not `None`). -/
structure TfIdf where
  k : Option Nat
  normalize : Bool
  idf : List (String × ℝ)

/-- Model of `TfIdf.__init__`: `self.idf = OrderedDict()`. -/
def TfIdf.init (k : Option Nat) (normalize : Bool) : TfIdf :=
  ⟨k, normalize, []⟩

/-- Model of `TfIdf.fit`: store the idf table (and return self). -/
noncomputable def TfIdf.fit (m : TfIdf) (X : List String) : TfIdf :=
  { m with idf := fitIdf m.k X }

/-- The unnormalized vector `[tf[word] * self.idf[word] for word in self.idf]`
of `TfIdf._text_to_tf_idf`: term frequency is the raw occurrence count of
the word in the text. -/
noncomputable def rawTfIdf (idf : List (String × ℝ)) (text : String) :
    List ℝ :=
  idf.map (fun p => ((tokenize text).count p.1 : ℝ) * p.2)

/-- Model of `np.linalg.norm`: the L2 norm of a vector. -/
noncomputable def l2norm (v : List ℝ) : ℝ :=
  Real.sqrt ((v.map (fun x => x ^ 2)).sum)

/-- Model of `TfIdf._text_to_tf_idf`: the raw tf·idf vector, divided entrywise by
`(np.linalg.norm(result) + EPS)` when `self.normalize` holds. -/
noncomputable def text_to_tf_idf (m : TfIdf) (text : String) : List ℝ :=
  if m.normalize then
    (rawTfIdf m.idf text).map
      (fun x => x / (l2norm (rawTfIdf m.idf text) + EPS))
  else
    rawTfIdf m.idf text

/-- Model of `TfIdf.transform`: the `assert self.idf is not None` can never fail
(`self.idf` is a dict from `__init__` on, never `None`), so only the
`np.stack` of the per-text vectors remains, which raises on empty `X`. -/
noncomputable def TfIdf.transform (m : TfIdf) (X : List String) :
    Except Err (List (List ℝ)) :=
  if X.isEmpty then Except.error Err.stackEmpty
  else Except.ok (X.map (fun t => text_to_tf_idf m t))

/-- Model of `TfIdf.transform` as a state transformer: the method body only reads
`self.idf` / `self.normalize` and assigns no attribute, so the post-state
is the pre-state. -/
noncomputable def TfIdf.transformS (m : TfIdf) (X : List String) :
    Except Err (List (List ℝ)) × TfIdf :=
  (m.transform X, m)

/-! ### Helper lemmas -/

theorem sortDesc_perm (key : α → Nat) (l : List α) : (sortDesc key l).Perm l :=
  List.perm_insertionSort _ l

theorem sortDesc_length (key : α → Nat) (l : List α) :
    (sortDesc key l).length = l.length :=
  (sortDesc_perm key l).length_eq

theorem sortDesc_sorted (key : α → Nat) (l : List α) :
    (sortDesc key l).Pairwise (fun a b => key b ≤ key a) := by
  haveI : IsTotal α (fun a b => key b ≤ key a) := ⟨fun a b => le_total _ _⟩
  haveI : IsTrans α (fun a b => key b ≤ key a) :=
    ⟨fun a b c h1 h2 => le_trans h2 h1⟩
  exact List.sorted_insertionSort _ l

theorem sortDesc_nodup (key : α → Nat) (l : List α) (h : l.Nodup) :
    (sortDesc key l).Nodup := ((sortDesc_perm key l).nodup_iff).mpr h

theorem mem_sortDesc (key : α → Nat) (l : List α) (a : α) :
    a ∈ sortDesc key l ↔ a ∈ l := (sortDesc_perm key l).mem_iff

theorem bowVocab_nodup (k : Nat) (X : List String) : (bowVocab k X).Nodup :=
  List.Nodup.sublist (List.take_sublist _ _)
    (sortDesc_nodup _ _ (List.nodup_dedup _))

theorem sum_map_add (f g : α → Nat) (l : List α) :
    (l.map (fun x => f x + g x)).sum = (l.map f).sum + (l.map g).sum := by
  induction l with
  | nil => rfl
  | cons a l ih =>
    simp only [List.map_cons, List.sum_cons, ih]
    omega

theorem sum_indicator (t : String) (V : List String) (hV : V.Nodup) :
    (V.map (fun w => if w = t then (1 : Nat) else 0)).sum
      = if t ∈ V then 1 else 0 := by
  induction V with
  | nil => simp
  | cons v V ih =>
    rw [List.nodup_cons] at hV
    rcases eq_or_ne v t with rfl | hv
    · have hz : (V.map (fun w => if w = v then (1 : Nat) else 0)).sum = 0 := by
        apply List.sum_eq_zero
        intro x hx
        simp only [List.mem_map] at hx
        obtain ⟨w, hw, rfl⟩ := hx
        exact if_neg (fun h : w = v => hV.1 (h ▸ hw))
      simp [hz]
    · simp only [List.map_cons, List.sum_cons, if_neg hv, ih hV.2, zero_add]
      by_cases ht : t ∈ V
      · rw [if_pos ht, if_pos (List.mem_cons_of_mem v ht)]
      · rw [if_neg ht,
          if_neg (fun hm => (List.mem_cons.mp hm).elim (fun h => hv h.symm) ht)]

theorem count_sum_eq_filter_length (V : List String) (hV : V.Nodup)
    (toks : List String) :
    (V.map (fun w => toks.count w)).sum
      = (toks.filter (fun t => decide (t ∈ V))).length := by
  induction toks with
  | nil => simp
  | cons t toks ih =>
    have hcount : ∀ w ∈ V,
        (t :: toks).count w = toks.count w + if w = t then 1 else 0 := by
      intro w _
      rw [List.count_cons]
      by_cases h : w = t
      · subst h
        simp
      · have h2 : ¬ t = w := fun hh => h hh.symm
        simp [beq_iff_eq, h, h2]
    calc (V.map (fun w => (t :: toks).count w)).sum
        = (V.map (fun w => toks.count w + if w = t then 1 else 0)).sum := by
          rw [List.map_congr_left hcount]
      _ = (V.map (fun w => toks.count w)).sum
            + (V.map (fun w => if w = t then 1 else 0)).sum := sum_map_add _ _ V
      _ = (toks.filter (fun s => decide (s ∈ V))).length
            + (if t ∈ V then 1 else 0) := by
          rw [ih, sum_indicator t V hV]
      _ = ((t :: toks).filter (fun s => decide (s ∈ V))).length := by
          rw [List.filter_cons]
          by_cases hm : t ∈ V
          · simp [hm, Nat.add_comm]
          · simp [hm]

theorem dfTable_mem (X : List String) (p : String × Nat) (hp : p ∈ dfTable X) :
    p.1 ∈ corpusVocab X ∧ p.2 = docFreq X p.1 := by
  simp only [dfTable, List.mem_map] at hp
  obtain ⟨w, hw, rfl⟩ := hp
  exact ⟨hw, rfl⟩

theorem mem_restrictTable (k : Option Nat) (tbl : List (String × Nat))
    (p : String × Nat) (hp : p ∈ restrictTable k tbl) : p ∈ tbl := by
  cases k with
  | none => exact hp
  | some n =>
    cases n with
    | zero => exact hp
    | succ m =>
      exact (mem_sortDesc _ _ _).mp ((List.take_sublist _ _).subset hp)

theorem docFreq_pos (X : List String) (w : String) (hw : w ∈ corpusVocab X) :
    0 < docFreq X w := by
  have hw2 : w ∈ corpusTokens X := (List.mem_dedup).mp hw
  simp only [corpusTokens, List.mem_flatten, List.mem_map] at hw2
  obtain ⟨l, ⟨t, ht, rfl⟩, hwl⟩ := hw2
  unfold docFreq
  rw [List.countP_pos_iff]
  exact ⟨t, ht, by simpa using hwl⟩

theorem mem_fitIdf (k : Option Nat) (X : List String) (w : String) (v : ℝ)
    (h : (w, v) ∈ fitIdf k X) :
    w ∈ corpusVocab X ∧ v = idfValue X.length (docFreq X w) := by
  simp only [fitIdf, List.mem_map] at h
  obtain ⟨p, hp, heq⟩ := h
  have hp2 := dfTable_mem X p (mem_restrictTable k _ p hp)
  obtain ⟨h1, h2⟩ := Prod.mk.injEq _ _ _ _ ▸ heq
  subst h1
  exact ⟨hp2.1, h2 ▸ congrArg (idfValue X.length) hp2.2.symm ▸ rfl⟩

theorem EPS_pos : (0 : ℝ) < EPS := by norm_num [EPS]

theorem sum_map_div (f : α → ℝ) (c : ℝ) (l : List α) :
    (l.map (fun x => f x / c)).sum = (l.map f).sum / c := by
  induction l with
  | nil => simp
  | cons a l ih => simp [ih, add_div]

theorem sum_sq_nonneg (v : List ℝ) : 0 ≤ (v.map (fun x => x ^ 2)).sum := by
  apply List.sum_nonneg
  intro x hx
  simp only [List.mem_map] at hx
  obtain ⟨y, _, rfl⟩ := hx
  positivity

theorem l2norm_nonneg (v : List ℝ) : 0 ≤ l2norm v := Real.sqrt_nonneg _

theorem l2norm_singleton (x : ℝ) : l2norm [x] = |x| := by
  simp [l2norm, Real.sqrt_sq_eq_abs]

theorem l2norm_map_div (v : List ℝ) (c : ℝ) (hc : 0 < c) :
    l2norm (v.map (fun x => x / c)) = l2norm v / c := by
  unfold l2norm
  rw [List.map_map]
  have h1 : ((fun x : ℝ => x ^ 2) ∘ fun x : ℝ => x / c)
      = fun x : ℝ => (x ^ 2) / (c ^ 2) := by
    funext x
    simp [Function.comp, div_pow]
  rw [h1, sum_map_div (fun x : ℝ => x ^ 2) (c ^ 2) v,
      Real.sqrt_div (sum_sq_nonneg v), Real.sqrt_sq hc.le]

theorem l2norm_normalized (v : List ℝ) :
    l2norm (v.map (fun x => x / (l2norm v + EPS)))
      = l2norm v / (l2norm v + EPS) :=
  l2norm_map_div v _ (by linarith [l2norm_nonneg v, EPS_pos])

/-! ### Claims -/

/-- Claim C1: every entry `(w, v)` of the idf table stored by `TfIdf.fit`
satisfies `v = ln(N / (df(w) + 1))`, where `df(w)` is the number of corpus
documents containing `w` at least once and `N` the corpus size; if `w`
appears in all `N` documents (`df(w) = N`), its score is strictly
negative. -/
theorem C1_tfidf_fit_idf (k : Option Nat) (nrm : Bool) (X : List String)
    (w : String) (v : ℝ) (h : (w, v) ∈ ((TfIdf.init k nrm).fit X).idf) :
    v = Real.log ((X.length : ℝ) / ((docFreq X w : ℝ) + 1)) ∧
    (docFreq X w = X.length → v < 0) := by
  have h2 := mem_fitIdf k X w v h
  refine ⟨h2.2, ?_⟩
  intro hdf
  have hpos : 0 < docFreq X w := docFreq_pos X w h2.1
  have hN : (0 : ℝ) < (X.length : ℝ) := by exact_mod_cast hdf ▸ hpos
  rw [h2.2, hdf]
  unfold idfValue
  apply Real.log_neg
  · exact div_pos hN (by positivity)
  · rw [div_lt_one (by positivity)]
    linarith

theorem C1_witness :
    ("a", idfValue 1 1) ∈ ((TfIdf.init none false).fit ["a"]).idf ∧
    idfValue 1 1 < 0 := by
  have hmem : ("a", idfValue 1 1) ∈ ((TfIdf.init none false).fit ["a"]).idf := by
    show ("a", idfValue 1 1) ∈ [("a", idfValue 1 1)]
    exact List.mem_singleton.mpr rfl
  exact ⟨hmem,
    (C1_tfidf_fit_idf none false ["a"] "a" (idfValue 1 1) hmem).2 (by decide)⟩

/-- Claim C2 (code bug): `BoW.transform` before `fit` does fail with the
used-before-fit assertion, but `TfIdf.transform` before `fit` does not:
`__init__` sets `self.idf` to an empty `OrderedDict()`, never `None`, so
`assert self.idf is not None` is vacuous and the call returns one
width-0 row per input text instead of failing. -/
theorem C2_unfit_transform (k : Option Nat) (nrm : Bool) (kb : Nat) :
    (TfIdf.init k nrm).transform ["a"] = Except.ok [[]] ∧
    (BoW.init kb).transform ["a"] = Except.error Err.assertFail := by
  constructor
  · cases nrm <;> rfl
  · rfl

/-- Claim C3: after `BoW.fit` on any corpus with any `k`, the stored
vocabulary has length `min k (number of distinct corpus tokens)`, contains
no duplicate tokens, and is ordered by non-increasing global occurrence
count across the corpus. -/
theorem C3_bow_vocabulary (k : Nat) (X : List String) :
    (bowVocab k X).length = min k (corpusVocab X).length ∧
    (bowVocab k X).Nodup ∧
    (bowVocab k X).Pairwise (fun a b => corpusCount X b ≤ corpusCount X a) := by
  refine ⟨?_, bowVocab_nodup k X, ?_⟩
  · rw [bowVocab, List.length_take, sortDesc_length]
  · exact List.Pairwise.sublist (List.take_sublist _ _) (sortDesc_sorted _ _)

/-- Claim C4: after `BoW.fit`, the transformed vector of a text has as its
`i`-th entry the occurrence count of the `i`-th vocabulary token in that
text (out-of-vocabulary tokens are simply not counted), and the vector's
sum equals the number of the text's tokens that belong to the
vocabulary. -/
theorem C4_bow_counts (k : Nat) (X : List String) (text : String) :
    (∀ i, i < (bowVocab k X).length →
      (text_to_bow (bowVocab k X) text).getD i 0
        = (tokenize text).count ((bowVocab k X).getD i "")) ∧
    (text_to_bow (bowVocab k X) text).sum
      = ((tokenize text).filter (fun t => decide (t ∈ bowVocab k X))).length := by
  constructor
  · intro i hi
    unfold text_to_bow
    rw [List.getD_eq_getElem?_getD, List.getElem?_map,
        List.getElem?_eq_getElem hi, List.getD_eq_getElem?_getD,
        List.getElem?_eq_getElem hi]
    rfl
  · exact count_sum_eq_filter_length _ (bowVocab_nodup k X) _

theorem C4_witness :
    0 < (bowVocab 2 ["a b b"]).length ∧
    (text_to_bow (bowVocab 2 ["a b b"]) "b a b").getD 0 0
      = (tokenize "b a b").count ((bowVocab 2 ["a b b"]).getD 0 "") ∧
    (text_to_bow (bowVocab 2 ["a b b"]) "b a b").sum
      = ((tokenize "b a b").filter (fun t => decide (t ∈ bowVocab 2 ["a b b"]))).length := by
  have h := C4_bow_counts 2 ["a b b"] "b a b"
  exact ⟨by decide, h.1 0 (by decide), h.2⟩

/-- Claim C6 counterexample: with `N = 1` and `df = 1` we have `df ≤ N`,
yet the idf score is `ln(1/2) < 0`, refuting non-negativity under the
hypothesis `df ≤ N`. -/
theorem C6_counterexample : (1 : Nat) ≤ 1 ∧ idfValue 1 1 < 0 := by
  refine ⟨le_refl 1, ?_⟩
  unfold idfValue
  apply Real.log_neg <;> norm_num

/-- Claim C6 amended: the idf score is always defined (the smoothed
denominator `df + 1` is positive), and it is non-negative whenever
`df + 1 ≤ N`, i.e. whenever the token is absent from at least one
document; for `df = N` it is negative (see the counterexample). -/
theorem C6_amended_idf_nonneg (N df : Nat) (h : df + 1 ≤ N) :
    (0 : ℝ) < (df : ℝ) + 1 ∧ 0 ≤ idfValue N df := by
  refine ⟨by positivity, ?_⟩
  unfold idfValue
  apply Real.log_nonneg
  rw [le_div_iff₀ (by positivity)]
  have hc : ((df : ℝ) + 1) ≤ (N : ℝ) := by exact_mod_cast h
  linarith

theorem C6_witness : 0 + 1 ≤ 2 ∧ 0 ≤ idfValue 2 0 :=
  ⟨by norm_num, (C6_amended_idf_nonneg 2 0 (by norm_num)).2⟩

/-- After `fit`, `BoW.transform` on a non-empty batch succeeds and maps
`_text_to_bow` over the texts. -/
theorem bow_transform_after_fit (kb : Nat) (Xc texts : List String)
    (h : texts.isEmpty = false) :
    ((BoW.init kb).fit Xc).transform texts
      = Except.ok (texts.map (fun t => text_to_bow (bowVocab kb Xc) t)) := by
  show (if texts.isEmpty then (Except.error Err.stackEmpty : Except Err (List (List Nat)))
        else Except.ok (texts.map (fun t => text_to_bow (bowVocab kb Xc) t))) = _
  rw [h]
  rfl

/-- After `fit`, `TfIdf.transform` on a non-empty batch succeeds and maps
`_text_to_tf_idf` over the texts. -/
theorem tfidf_transform_after_fit (k : Option Nat) (nrm : Bool) (Xc texts : List String)
    (h : texts.isEmpty = false) :
    ((TfIdf.init k nrm).fit Xc).transform texts
      = Except.ok (texts.map (fun t => text_to_tf_idf ((TfIdf.init k nrm).fit Xc) t)) := by
  show (if texts.isEmpty then (Except.error Err.stackEmpty : Except Err (List (List ℝ)))
        else Except.ok (texts.map (fun t => text_to_tf_idf ((TfIdf.init k nrm).fit Xc) t))) = _
  rw [h]
  rfl

/-- Claim C7 amended: with `normalize = true`, each output row is the raw
tf·idf vector divided entrywise by (its own L2 norm + 1e-4); the output
row's L2 norm is therefore `‖v‖ / (‖v‖ + 1e-4)`, which is within 1e-4 of
1.0 whenever the raw norm `‖v‖` is at least `1 - 1e-4` — but not for
every non-zero row: rows whose raw norm is small miss 1.0 by more (see
the counterexample). -/
theorem C7_normalized_rows (m : TfIdf) (text : String)
    (hn : m.normalize = true) :
    text_to_tf_idf m text
      = (rawTfIdf m.idf text).map
          (fun x => x / (l2norm (rawTfIdf m.idf text) + EPS)) ∧
    l2norm (text_to_tf_idf m text)
      = l2norm (rawTfIdf m.idf text) / (l2norm (rawTfIdf m.idf text) + EPS) ∧
    (1 - EPS ≤ l2norm (rawTfIdf m.idf text) →
      |l2norm (text_to_tf_idf m text) - 1| ≤ EPS) := by
  have hdef : text_to_tf_idf m text
      = (rawTfIdf m.idf text).map
          (fun x => x / (l2norm (rawTfIdf m.idf text) + EPS)) := by
    unfold text_to_tf_idf
    rw [hn]
    rfl
  have hnorm : l2norm (text_to_tf_idf m text)
      = l2norm (rawTfIdf m.idf text) / (l2norm (rawTfIdf m.idf text) + EPS) := by
    rw [hdef]
    exact l2norm_normalized _
  refine ⟨hdef, hnorm, ?_⟩
  intro hge
  have hn0 : 0 ≤ l2norm (rawTfIdf m.idf text) := l2norm_nonneg _
  have heps := EPS_pos
  set s := l2norm (rawTfIdf m.idf text) with hs
  have hd : 0 < s + EPS := by linarith
  have hle1 : s / (s + EPS) ≤ 1 := by
    rw [div_le_one hd]
    linarith
  rw [hnorm, abs_of_nonpos (by linarith), neg_sub]
  have hkey : 1 - s / (s + EPS) = EPS / (s + EPS) := by
    field_simp
  rw [hkey, div_le_iff₀ hd]
  nlinarith

theorem C7_witness :
    ((TfIdf.init none true).fit ["a", "", "", "", "", ""]).normalize = true ∧
    1 - EPS ≤ l2norm (rawTfIdf
      (((TfIdf.init none true).fit ["a", "", "", "", "", ""]).idf) "a") ∧
    |l2norm (text_to_tf_idf
      ((TfIdf.init none true).fit ["a", "", "", "", "", ""]) "a") - 1| ≤ EPS := by
  have hc : (tokenize "a").count "a" = 1 := by decide
  have hraw : rawTfIdf
      (((TfIdf.init none true).fit ["a", "", "", "", "", ""]).idf) "a"
      = [idfValue 6 1] := by
    show [(((tokenize "a").count "a" : Nat) : ℝ) * idfValue 6 1] = _
    rw [hc]
    norm_num
  have hlog : (1 : ℝ) < idfValue 6 1 := by
    unfold idfValue
    have h6 : ((6 : Nat) : ℝ) / (((1 : Nat) : ℝ) + 1) = 3 := by norm_num
    rw [h6, show (1 : ℝ) = Real.log (Real.exp 1) from (Real.log_exp 1).symm]
    apply Real.log_lt_log (Real.exp_pos 1)
    calc Real.exp 1 < 2.7182818286 := Real.exp_one_lt_d9
      _ < 3 := by norm_num
  have hge : 1 - EPS ≤ l2norm (rawTfIdf
      (((TfIdf.init none true).fit ["a", "", "", "", "", ""]).idf) "a") := by
    rw [hraw, l2norm_singleton, abs_of_pos (by linarith)]
    have : EPS < 1 / 2 := by norm_num [EPS]
    linarith [EPS_pos]
  exact ⟨rfl, hge,
    (C7_normalized_rows ((TfIdf.init none true).fit ["a", "", "", "", "", ""])
      "a" rfl).2.2 hge⟩

/-- Claim C7 counterexample: fit with normalization on `["a", "a", "a"]`
gives `idf("a") = ln(3/4) < 0`; the row for text `"a"` is non-zero, its
raw L2 norm is `ln(4/3) ≤ 1/3`, and the normalized row's L2 norm
`n / (n + 1e-4)` misses 1.0 by `1e-4 / (n + 1e-4) > 1e-4`. -/
theorem C7_counterexample :
    (text_to_tf_idf ((TfIdf.init none true).fit ["a", "a", "a"]) "a").getD 0 0
      ≠ 0 ∧
    EPS < |l2norm (text_to_tf_idf
      ((TfIdf.init none true).fit ["a", "a", "a"]) "a") - 1| := by
  have hc : (tokenize "a").count "a" = 1 := by decide
  have hraw : rawTfIdf (((TfIdf.init none true).fit ["a", "a", "a"]).idf) "a"
      = [idfValue 3 3] := by
    show [(((tokenize "a").count "a" : Nat) : ℝ) * idfValue 3 3] = _
    rw [hc]
    norm_num
  have hneg : idfValue 3 3 < 0 := by
    unfold idfValue
    apply Real.log_neg <;> norm_num
  have hnv : l2norm [idfValue 3 3] = -(idfValue 3 3) := by
    rw [l2norm_singleton, abs_of_neg hneg]
  have hub : -(idfValue 3 3) ≤ 1 / 3 := by
    have hv34 : idfValue 3 3 = Real.log ((3 : ℝ) / 4) := by
      unfold idfValue
      norm_num
    rw [hv34, ← Real.log_inv]
    have hlog := Real.log_le_sub_one_of_pos (x := ((3 : ℝ) / 4)⁻¹) (by norm_num)
    norm_num at hlog ⊢
    linarith
  have hrow : text_to_tf_idf ((TfIdf.init none true).fit ["a", "a", "a"]) "a"
      = [idfValue 3 3 / (l2norm [idfValue 3 3] + EPS)] := by
    have hd : text_to_tf_idf ((TfIdf.init none true).fit ["a", "a", "a"]) "a"
        = (rawTfIdf (((TfIdf.init none true).fit ["a", "a", "a"]).idf) "a").map
            (fun x => x / (l2norm (rawTfIdf
              (((TfIdf.init none true).fit ["a", "a", "a"]).idf) "a") + EPS)) := rfl
    rw [hd, hraw]
    rfl
  have hnpos : 0 < -(idfValue 3 3) := neg_pos.mpr hneg
  have heps := EPS_pos
  have hdenom : (0 : ℝ) < -(idfValue 3 3) + EPS := by linarith
  constructor
  · rw [hrow]
    show idfValue 3 3 / (l2norm [idfValue 3 3] + EPS) ≠ 0
    rw [hnv]
    exact ne_of_lt (div_neg_of_neg_of_pos hneg hdenom)
  · have hnval : l2norm (text_to_tf_idf
        ((TfIdf.init none true).fit ["a", "a", "a"]) "a")
        = -(idfValue 3 3) / (-(idfValue 3 3) + EPS) := by
      rw [hrow, l2norm_singleton, hnv, abs_div, abs_of_neg hneg,
        abs_of_pos hdenom]
    rw [hnval]
    have hle1 : -(idfValue 3 3) / (-(idfValue 3 3) + EPS) ≤ 1 := by
      rw [div_le_one hdenom]
      linarith
    rw [abs_of_nonpos (by linarith), neg_sub]
    have hkey : 1 - -(idfValue 3 3) / (-(idfValue 3 3) + EPS)
        = EPS / (-(idfValue 3 3) + EPS) := by
      field_simp
    rw [hkey, lt_div_iff₀ hdenom]
    have h1 : -(idfValue 3 3) + EPS < 1 := by
      have : EPS < 1 / 2 := by norm_num [EPS]
      linarith
    nlinarith

/-- Claim C8 amended: fitting either component on the empty corpus yields
an empty vocabulary / idf table, and `transform` on any *non-empty* batch
of texts returns one width-0 row per text; a batch of zero texts instead
hits `np.stack`'s empty-list error (see the counterexample). -/
theorem C8_empty_corpus (kb : Nat) (k : Option Nat) (nrm : Bool)
    (texts : List String) (h : texts ≠ []) :
    ((BoW.init kb).fit []).bow = some [] ∧
    ((TfIdf.init k nrm).fit []).idf = [] ∧
    ((BoW.init kb).fit []).transform texts
      = Except.ok (texts.map (fun _ => ([] : List Nat))) ∧
    ((TfIdf.init k nrm).fit []).transform texts
      = Except.ok (texts.map (fun _ => ([] : List ℝ))) := by
  have hb : bowVocab kb [] = [] := by
    simp [bowVocab, sortDesc, corpusVocab, corpusTokens]
  have ht : fitIdf k [] = [] := by
    cases k with
    | none => rfl
    | some n =>
      cases n with
      | zero => rfl
      | succ m =>
        simp [fitIdf, restrictTable, dfTable, corpusVocab, corpusTokens, sortDesc]
  have hne : texts.isEmpty = false := by
    cases texts with
    | nil => exact absurd rfl h
    | cons a l => rfl
  refine ⟨?_, ?_, ?_, ?_⟩
  · show some (bowVocab kb []) = some []
    rw [hb]
  · exact ht
  · rw [bow_transform_after_fit kb [] texts hne, hb]
    rfl
  · rw [tfidf_transform_after_fit k nrm [] texts hne]
    congr 1
    apply List.map_congr_left
    intro t _
    show text_to_tf_idf ⟨k, nrm, fitIdf k []⟩ t = []
    rw [ht]
    cases nrm <;> simp [text_to_tf_idf, rawTfIdf]

theorem C8_witness :
    (["x"] : List String) ≠ [] ∧
    ((BoW.init 1).fit []).transform ["x"] = Except.ok [[]] ∧
    ((TfIdf.init none false).fit []).transform ["x"] = Except.ok [[]] := by
  have h := C8_empty_corpus 1 none false ["x"] (by simp)
  exact ⟨by simp, h.2.2.1, h.2.2.2⟩

/-- Claim C8 counterexample: after fitting `BoW` on the empty corpus,
`transform` applied to an empty batch of texts raises the `np.stack`
empty-list error rather than producing a result of shape `(0, 0)`. -/
theorem C8_counterexample :
    ((BoW.init 1).fit []).transform [] = Except.error Err.stackEmpty := rfl

/-- Claim C5 amended: when `k` is set to a *nonzero* value `n`, the fitted
idf table has at most `n` entries, every key is a corpus token, and every
dropped token's document frequency is at most that of every kept token
(the table is restricted to the `n` highest-df tokens); when `k` is unset
the table covers the full corpus vocabulary. (For `k = 0`, a set value,
Python's `if self.k:` is false and no restriction happens — see the
counterexample.) -/
theorem C5_tfidf_table_size (nrm : Bool) (X : List String) (n : Nat)
    (hn : 0 < n) :
    (((TfIdf.init (some n) nrm).fit X).idf).length ≤ n ∧
    (∀ p ∈ ((TfIdf.init (some n) nrm).fit X).idf, p.1 ∈ corpusVocab X) ∧
    (∀ w ∈ corpusVocab X,
      (∀ p ∈ ((TfIdf.init (some n) nrm).fit X).idf, p.1 ≠ w) →
      ∀ p ∈ ((TfIdf.init (some n) nrm).fit X).idf,
        docFreq X w ≤ docFreq X p.1) ∧
    (((TfIdf.init none nrm).fit X).idf).length = (corpusVocab X).length := by
  obtain ⟨m, rfl⟩ : ∃ m, n = m + 1 := ⟨n - 1, (Nat.succ_pred_eq_of_pos hn).symm⟩
  have hfit : ((TfIdf.init (some (m + 1)) nrm).fit X).idf
      = ((sortDesc (fun p => p.2) (dfTable X)).take (m + 1)).map
          (fun p => (p.1, idfValue X.length p.2)) := rfl
  refine ⟨?_, ?_, ?_, ?_⟩
  · rw [hfit, List.length_map, List.length_take]
    exact min_le_left _ _
  · intro p hp
    rw [hfit] at hp
    simp only [List.mem_map] at hp
    obtain ⟨q, hq, rfl⟩ := hp
    exact (dfTable_mem X q
      ((mem_sortDesc _ _ _).mp ((List.take_sublist _ _).subset hq))).1
  · intro w hw hdrop p hp
    rw [hfit] at hp
    simp only [List.mem_map] at hp
    obtain ⟨q, hq, rfl⟩ := hp
    have hq_df : q.2 = docFreq X q.1 :=
      (dfTable_mem X q
        ((mem_sortDesc _ _ _).mp ((List.take_sublist _ _).subset hq))).2
    have hw_tbl : (w, docFreq X w) ∈ dfTable X := by
      simp only [dfTable, List.mem_map]
      exact ⟨w, hw, rfl⟩
    have hw_s : (w, docFreq X w) ∈ sortDesc (fun p => p.2) (dfTable X) :=
      (mem_sortDesc _ _ _).mpr hw_tbl
    have hw_not_take :
        (w, docFreq X w) ∉ (sortDesc (fun p => p.2) (dfTable X)).take (m + 1) := by
      intro hmem
      have hkey : (w, idfValue X.length (docFreq X w))
          ∈ ((TfIdf.init (some (m + 1)) nrm).fit X).idf := by
        rw [hfit]
        exact List.mem_map_of_mem _ hmem
      exact hdrop _ hkey rfl
    have hw_drop :
        (w, docFreq X w) ∈ (sortDesc (fun p => p.2) (dfTable X)).drop (m + 1) := by
      have hsplit : (w, docFreq X w)
          ∈ (sortDesc (fun p => p.2) (dfTable X)).take (m + 1)
            ++ (sortDesc (fun p => p.2) (dfTable X)).drop (m + 1) := by
        rw [List.take_append_drop]
        exact hw_s
      rcases List.mem_append.mp hsplit with h | h
      · exact absurd h hw_not_take
      · exact h
    have hsorted := sortDesc_sorted (fun p : String × Nat => p.2) (dfTable X)
    rw [← List.take_append_drop (m + 1) (sortDesc (fun p => p.2) (dfTable X))]
      at hsorted
    have hcmp := (List.pairwise_append.mp hsorted).2.2 q hq (w, docFreq X w) hw_drop
    simpa [hq_df] using hcmp
  · show (fitIdf none X).length = _
    rw [fitIdf, List.length_map]
    show (dfTable X).length = _
    rw [dfTable, List.length_map]

theorem C5_witness :
    0 < 1 ∧ (((TfIdf.init (some 1) false).fit ["a b", "b"]).idf).length ≤ 1 ∧
    (((TfIdf.init none false).fit ["a b", "b"]).idf).length
      = (corpusVocab ["a b", "b"]).length := by
  have h := C5_tfidf_table_size false ["a b", "b"] 1 (by decide)
  exact ⟨by decide, h.1, h.2.2.2⟩

/-- Claim C5 counterexample: `k = 0` is a set value, but Python's
`if self.k:` is false for `0`, so the restriction step is skipped:
fitting on the corpus `["a"]` stores one entry, violating
`table size ≤ k = 0`. -/
theorem C5_counterexample :
    ¬ ((((TfIdf.init (some 0) false).fit ["a"]).idf).length ≤ 0) := by
  decide

/-- Claim C10: with `normalize = true`, a text none of whose tokens is a
retained key of the fitted idf table transforms to the all-zero row of
table width; the divisor `‖v‖ + 1e-4` is positive, so the division with a
zero numerator is exact and produces neither an error nor a non-zero
value. -/
theorem C10_unknown_tokens_zero_row (k : Option Nat) (Xc : List String)
    (text : String)
    (h : ∀ tok ∈ tokenize text,
      tok ∉ (((TfIdf.init k true).fit Xc).idf).map Prod.fst) :
    0 < l2norm (rawTfIdf (((TfIdf.init k true).fit Xc).idf) text) + EPS ∧
    text_to_tf_idf ((TfIdf.init k true).fit Xc) text
      = List.replicate ((((TfIdf.init k true).fit Xc).idf).length) 0 := by
  have hraw : rawTfIdf (((TfIdf.init k true).fit Xc).idf) text
      = List.replicate ((((TfIdf.init k true).fit Xc).idf).length) 0 := by
    rw [rawTfIdf, List.eq_replicate_iff]
    refine ⟨List.length_map _ _, ?_⟩
    intro x hx
    simp only [List.mem_map] at hx
    obtain ⟨p, hp, rfl⟩ := hx
    have hcount : (tokenize text).count p.1 = 0 := by
      rw [List.count_eq_zero]
      intro hmem
      exact h p.1 hmem (List.mem_map_of_mem Prod.fst hp)
    rw [hcount]
    norm_num
  constructor
  · have h1 : 0 ≤ l2norm (rawTfIdf (((TfIdf.init k true).fit Xc).idf) text) :=
      Real.sqrt_nonneg _
    have h2 : (0 : ℝ) < EPS := by norm_num [EPS]
    linarith
  · have hnorm : text_to_tf_idf ((TfIdf.init k true).fit Xc) text
        = (rawTfIdf (((TfIdf.init k true).fit Xc).idf) text).map
            (fun x => x /
              (l2norm (rawTfIdf (((TfIdf.init k true).fit Xc).idf) text) + EPS)) := rfl
    rw [hnorm, hraw, List.map_replicate, zero_div]

theorem C10_witness :
    0 < l2norm (rawTfIdf (((TfIdf.init none true).fit ["a"]).idf) "b") + EPS ∧
    text_to_tf_idf ((TfIdf.init none true).fit ["a"]) "b"
      = List.replicate ((((TfIdf.init none true).fit ["a"]).idf).length) 0 :=
  C10_unknown_tokens_zero_row none ["a"] "b" (by decide)

/-- Claim C9: `transform` leaves the fitted table unchanged (the method
bodies never assign an attribute), and a second `transform` on the
post-state with the same input returns the same output. -/
theorem C9_transform_pure (kb : Nat) (k : Option Nat) (nrm : Bool)
    (Xc texts : List String) :
    ((((BoW.init kb).fit Xc).transformS texts).2).bow
      = ((BoW.init kb).fit Xc).bow ∧
    (((((BoW.init kb).fit Xc).transformS texts).2).transformS texts).1
      = (((BoW.init kb).fit Xc).transformS texts).1 ∧
    ((((TfIdf.init k nrm).fit Xc).transformS texts).2).idf
      = ((TfIdf.init k nrm).fit Xc).idf ∧
    (((((TfIdf.init k nrm).fit Xc).transformS texts).2).transformS texts).1
      = (((TfIdf.init k nrm).fit Xc).transformS texts).1 :=
  ⟨rfl, rfl, rfl, rfl⟩

end Features
